import Mathlib

/-!
Verification of the task-list data core of `SimpleTodoList` (src/TodoList.py).

The embedding follows the Python source:
* `Task` mirrors class `Task` (fields `title`, `due_date`, `priority`,
  `is_completed`); `Task.init` is `Task.__init__`, `Task.str` is
  `Task.__str__`.
* `TodoList` mirrors class `TodoList` with its internal list `tasks`.
* Python list indexing with an `Int` index is modelled by `pyIndex`:
  a negative index counts from the end of the list, and an index whose
  normalised value lies outside `[0, n)` raises `IndexError`, modelled
  as `none`.  Operations that index unconditionally (`edit_task`,
  `mark_completed`, `mark_incomplete`) therefore return `Option TodoList`,
  where `none` is an uncaught `IndexError`.
* `remove_task` guards with `0 <= task_index < len(self.tasks)` on the raw
  index and is a total function: out of range means no change.
* The truthiness test `if title:` on an optional string argument of
  `edit_task` (falsy exactly for `None` and the empty string) is modelled
  by `applyField`.
-/

namespace SimpleTodoList

/-- One task record, as in class `Task`. -/
structure Task where
  title : String
  due_date : String
  priority : String
  is_completed : Bool
  deriving Repr, DecidableEq

/-- Constructor `Task.__init__`: store the three given fields; the task starts not
completed. -/
def Task.init (title due_date priority : String) : Task :=
  { title := title, due_date := due_date, priority := priority,
    is_completed := false }

/-- Method `Task.__str__`: the display string
`f"{self.title} - {self.due_date} - {self.priority} - {status}"`. -/
def Task.str (t : Task) : String :=
  let status := if t.is_completed then "Completed" else "Not Completed"
  t.title ++ " - " ++ t.due_date ++ " - " ++ t.priority ++ " - " ++ status

/-- The task collection, as in class `TodoList`: its one attribute is the
internal list `tasks` (empty at construction). -/
structure TodoList where
  tasks : List Task
  deriving Repr, DecidableEq

/-- Constructor `TodoList.__init__`: the internal list starts empty. -/
def TodoList.init : TodoList := { tasks := [] }

/-- Index normalisation of Python list indexing: a negative index has the
length of the list added to it first. -/
def pyNorm (n : Nat) (i : Int) : Int :=
  if i < 0 then i + n else i

/-- Python list indexing with an `Int` index over a list of length `n`:
if the normalised index falls outside `[0, n)` an `IndexError` is raised
(modelled as `none`). -/
def pyIndex (n : Nat) (i : Int) : Option (Fin n) :=
  if h : 0 ≤ pyNorm n i ∧ pyNorm n i < (n : Int) then
    some ⟨(pyNorm n i).toNat, by omega⟩
  else none

/-- Method `TodoList.add_task`: construct a `Task` from the three fields and
append it at the end of the internal list. -/
def TodoList.add_task (l : TodoList) (title due_date priority : String) :
    TodoList :=
  { tasks := l.tasks ++ [Task.init title due_date priority] }

/-- Method `TodoList.remove_task`: when `0 <= task_index < len(self.tasks)`,
pop the element at that position; otherwise do nothing. -/
def TodoList.remove_task (l : TodoList) (task_index : Int) : TodoList :=
  if 0 ≤ task_index ∧ task_index < (l.tasks.length : Int) then
    { tasks := l.tasks.eraseIdx task_index.toNat }
  else l

/-- One field update of `edit_task`: Python `if arg: task.field = arg`,
where `None` and the empty string are falsy, every other string truthy. -/
def applyField (cur : String) (arg : Option String) : String :=
  match arg with
  | none => cur
  | some s => if s = "" then cur else s

/-- Method `TodoList.edit_task`: index the internal list (an out-of-range index
raises, `none`), then overwrite each field whose argument is truthy. -/
def TodoList.edit_task (l : TodoList) (task_index : Int)
    (title due_date priority : Option String) : Option TodoList :=
  match pyIndex l.tasks.length task_index with
  | none => none
  | some j =>
      let task := l.tasks.get j
      let edited : Task :=
        { title := applyField task.title title,
          due_date := applyField task.due_date due_date,
          priority := applyField task.priority priority,
          is_completed := task.is_completed }
      some { tasks := l.tasks.set j.val edited }

/-- Method `TodoList.mark_completed`: `self.tasks[task_index].is_completed = True`;
the indexing raises on an out-of-range index (`none`). -/
def TodoList.mark_completed (l : TodoList) (task_index : Int) :
    Option TodoList :=
  match pyIndex l.tasks.length task_index with
  | none => none
  | some j =>
      let task := l.tasks.get j
      some { tasks := l.tasks.set j.val { task with is_completed := true } }

/-- Method `TodoList.mark_incomplete`: `self.tasks[task_index].is_completed = False`;
the indexing raises on an out-of-range index (`none`). -/
def TodoList.mark_incomplete (l : TodoList) (task_index : Int) :
    Option TodoList :=
  match pyIndex l.tasks.length task_index with
  | none => none
  | some j =>
      let task := l.tasks.get j
      some { tasks := l.tasks.set j.val { task with is_completed := false } }

/-! ## Helper lemmas about `pyIndex` -/

/-- The function `pyIndex` fails exactly when the index is at least the length or below
the negated length. -/
theorem pyIndex_eq_none_iff (n : Nat) (i : Int) :
    pyIndex n i = none ↔ ((n : Int) ≤ i ∨ i < -(n : Int)) := by
  have hn : pyNorm n i = if i < 0 then i + (n : Int) else i := rfl
  unfold pyIndex
  by_cases hc : 0 ≤ pyNorm n i ∧ pyNorm n i < (n : Int)
  · rw [dif_pos hc]
    rw [hn] at hc
    constructor
    · intro h
      exact absurd h (by simp)
    · intro h
      exfalso
      by_cases hi : i < 0
      · rw [if_pos hi] at hc
        omega
      · rw [if_neg hi] at hc
        omega
  · rw [dif_neg hc]
    rw [hn] at hc
    constructor
    · intro _
      by_cases hi : i < 0
      · rw [if_pos hi] at hc
        omega
      · rw [if_neg hi] at hc
        omega
    · intro _
      rfl

/-- A nonnegative in-range index addresses its own position. -/
theorem pyIndex_of_nonneg {n : Nat} {i : Int} (h0 : 0 ≤ i)
    (h1 : i < (n : Int)) :
    pyIndex n i = some ⟨i.toNat, by omega⟩ := by
  have hn : pyNorm n i = i := by
    unfold pyNorm
    rw [if_neg (by omega)]
  unfold pyIndex
  rw [dif_pos (by rw [hn]; exact ⟨h0, h1⟩)]
  congr 1
  apply Fin.ext
  show (pyNorm n i).toNat = i.toNat
  omega

/-- A negative index with `-n ≤ i < 0` addresses position `i + n`. -/
theorem pyIndex_of_neg {n : Nat} {i : Int} (h0 : -(n : Int) ≤ i)
    (h1 : i < 0) :
    pyIndex n i = some ⟨(i + n).toNat, by omega⟩ := by
  have hn : pyNorm n i = i + n := by
    unfold pyNorm
    rw [if_pos h1]
  unfold pyIndex
  rw [dif_pos (by rw [hn]; constructor <;> omega)]
  congr 1
  apply Fin.ext
  show (pyNorm n i).toNat = (i + n).toNat
  omega

/-- Writing back the element already stored at a position leaves the list
unchanged. -/
theorem set_getElem?_self {α : Type} {l : List α} {i : Nat} {a : α}
    (h : l[i]? = some a) : l.set i a = l := by
  apply List.ext_getElem?
  intro k
  rw [List.getElem?_set]
  by_cases hik : i = k
  · subst hik
    rw [if_pos rfl, if_pos (List.getElem?_eq_some_iff.mp h).1, h]
  · rw [if_neg hik]

/-! ## Claims -/

/-- C6: `Task.__str__` deterministically returns
`"{title} - {due_date} - {priority} - {status}"` where the status text is
`"Completed"` when `is_completed` is true and `"Not Completed"` otherwise;
in particular `Task("Buy milk","2024-01-01","High")` with
`is_completed = false` renders exactly
`"Buy milk - 2024-01-01 - High - Not Completed"`. -/
theorem task_str_format (t : Task) :
    t.str = t.title ++ " - " ++ t.due_date ++ " - " ++ t.priority ++ " - "
      ++ (if t.is_completed then "Completed" else "Not Completed") ∧
    (Task.init "Buy milk" "2024-01-01" "High").str
      = "Buy milk - 2024-01-01 - High - Not Completed" := by
  refine ⟨rfl, ?_⟩
  rfl

/-- C8: starting from an empty list, `add_task("A","2024-01-01","Low")`,
`add_task("B","2024-01-02","High")`, `remove_task(0)` leaves exactly one
task, B, at position 0. -/
theorem scenario_add_add_remove :
    ((TodoList.init.add_task "A" "2024-01-01" "Low").add_task
        "B" "2024-01-02" "High").remove_task 0
      = { tasks := [Task.init "B" "2024-01-02" "High"] } := by
  rfl

/-- C3: `remove_task` with an out-of-range index (negative or at least the
length) is a silent no-op: the whole list state is unchanged. -/
theorem remove_task_out_of_range (l : TodoList) (i : Int)
    (h : i < 0 ∨ (l.tasks.length : Int) ≤ i) :
    l.remove_task i = l := by
  unfold TodoList.remove_task
  rw [if_neg]
  omega

/-- Witness for C3 at a concrete one-element list and index 5. -/
theorem remove_task_out_of_range_witness :
    (TodoList.init.add_task "A" "d" "p").remove_task 5
      = TodoList.init.add_task "A" "d" "p" :=
  remove_task_out_of_range _ 5 (by decide)

/-- C2: `remove_task` at a valid index `0 ≤ i < length` shrinks the length
by exactly one, keeps every task before position `i` in place, and shifts
every task after position `i` down by one (order preserved). -/
theorem remove_task_valid (l : TodoList) (i : Int) (h0 : 0 ≤ i)
    (h1 : i < (l.tasks.length : Int)) :
    (l.remove_task i).tasks.length = l.tasks.length - 1 ∧
    (∀ k : Nat, (k : Int) < i → (l.remove_task i).tasks[k]? = l.tasks[k]?) ∧
    (∀ k : Nat, i < (k : Int) → k < l.tasks.length →
      (l.remove_task i).tasks[k - 1]? = l.tasks[k]?) := by
  have hrem : l.remove_task i = { tasks := l.tasks.eraseIdx i.toNat } := by
    unfold TodoList.remove_task
    rw [if_pos ⟨h0, h1⟩]
  refine ⟨?_, ?_, ?_⟩
  · rw [hrem]
    exact List.length_eraseIdx_of_lt (by omega)
  · intro k hk
    rw [hrem]
    exact List.getElem?_eraseIdx_of_lt _ _ _ (by omega)
  · intro k hk hk2
    rw [hrem]
    have hk1 : 1 ≤ k := by omega
    have := List.getElem?_eraseIdx_of_ge l.tasks i.toNat (k - 1) (by omega)
    rwa [Nat.sub_add_cancel hk1] at this

/-- Witness for C2: removing index 0 from a two-element list. -/
theorem remove_task_valid_witness :
    (((TodoList.init.add_task "A" "d" "p").add_task "B" "e" "q").remove_task
        0).tasks.length
      = ((TodoList.init.add_task "A" "d" "p").add_task "B" "e" "q").tasks.length
        - 1 :=
  (remove_task_valid ((TodoList.init.add_task "A" "d" "p").add_task "B" "e" "q")
    0 (by decide) (by decide)).1

/-- An absent field argument leaves the current value. -/
theorem applyField_none (cur : String) : applyField cur none = cur := rfl

/-- An empty-string field argument is falsy and leaves the current value. -/
theorem applyField_empty (cur : String) : applyField cur (some "") = cur := by
  show (if ("" : String) = "" then cur else "") = cur
  rw [if_pos rfl]

/-- A non-empty field argument is truthy and overwrites the current value. -/
theorem applyField_of_ne (cur : String) {s : String} (h : s ≠ "") :
    applyField cur (some s) = s := by
  show (if s = "" then cur else s) = s
  rw [if_neg h]

/-- The task `t` with its completion flag set to `b` and every other field
unchanged. -/
def Task.withCompleted (t : Task) (b : Bool) : Task :=
  { t with is_completed := b }

/-- C4: `add_task` always succeeds, grows the list by exactly one, puts the
new task (with the given fields and `is_completed = false`) at the old
length, and leaves every existing position unchanged. -/
theorem add_task_appends (l : TodoList) (title due_date priority : String) :
    (l.add_task title due_date priority).tasks.length = l.tasks.length + 1 ∧
    (l.add_task title due_date priority).tasks[l.tasks.length]?
      = some { title := title, due_date := due_date, priority := priority,
               is_completed := false } ∧
    ∀ k : Nat, k < l.tasks.length →
      (l.add_task title due_date priority).tasks[k]? = l.tasks[k]? := by
  refine ⟨?_, ?_, ?_⟩
  · simp [TodoList.add_task]
  · exact List.getElem?_concat_length _ _
  · intro k hk
    exact List.getElem?_append_left hk

/-- Witness for C4 on the empty list. -/
theorem add_task_appends_witness :
    (TodoList.init.add_task "A" "2024-01-01" "High").tasks.length
      = TodoList.init.tasks.length + 1 :=
  (add_task_appends TodoList.init "A" "2024-01-01" "High").1

/-- C5: at a valid index, `edit_task` with empty-string `title` and
`priority` and a non-empty `due_date` changes only `due_date`; and in
general a field update can never set a field to the empty string it did
not already hold. -/
theorem edit_task_empty_fields (l : TodoList) (i : Int) (h0 : 0 ≤ i)
    (h1 : i < (l.tasks.length : Int)) (x : String) (hx : x ≠ "") :
    (∃ m, l.edit_task i (some "") (some x) (some "") = some m ∧
      m.tasks.length = l.tasks.length ∧
      (∀ k : Nat, k ≠ i.toNat → m.tasks[k]? = l.tasks[k]?) ∧
      ∀ t, l.tasks[i.toNat]? = some t →
        m.tasks[i.toNat]? = some { t with due_date := x }) ∧
    ∀ cur arg, applyField cur arg = "" → cur = "" := by
  have hlt : i.toNat < l.tasks.length := by omega
  have hj := pyIndex_of_nonneg h0 h1
  have hget : l.tasks[i.toNat]? = some (l.tasks.get ⟨i.toNat, hlt⟩) := by
    rw [List.getElem?_eq_getElem hlt]
    rfl
  constructor
  · refine ⟨TodoList.mk (l.tasks.set i.toNat
      (Task.mk (applyField (l.tasks.get ⟨i.toNat, hlt⟩).title (some ""))
        (applyField (l.tasks.get ⟨i.toNat, hlt⟩).due_date (some x))
        (applyField (l.tasks.get ⟨i.toNat, hlt⟩).priority (some ""))
        (l.tasks.get ⟨i.toNat, hlt⟩).is_completed)), ?_, ?_, ?_, ?_⟩
    · unfold TodoList.edit_task
      rw [hj]
    · exact List.length_set _ _ _
    · intro k hk
      exact List.getElem?_set_ne (Ne.symm hk)
    · intro t ht
      have hteq : l.tasks.get ⟨i.toNat, hlt⟩ = t := by
        rw [hget] at ht
        exact Option.some.inj ht
      rw [List.getElem?_set_self hlt]
      rw [applyField_empty, applyField_empty, applyField_of_ne _ hx, hteq]
  · intro cur arg habs
    match arg with
    | none => exact habs
    | some s =>
        by_cases hs : s = ""
        · rwa [hs, applyField_empty] at habs
        · rw [applyField_of_ne _ hs] at habs
          exact absurd habs hs

/-- Witness for C5 on a one-element list at index 0. -/
theorem edit_task_empty_fields_witness :
    ∃ m, (TodoList.init.add_task "A" "d" "p").edit_task 0
        (some "") (some "X") (some "") = some m ∧
      m.tasks.length = (TodoList.init.add_task "A" "d" "p").tasks.length ∧
      (∀ k : Nat, k ≠ (0 : Int).toNat →
        m.tasks[k]? = (TodoList.init.add_task "A" "d" "p").tasks[k]?) ∧
      ∀ t, (TodoList.init.add_task "A" "d" "p").tasks[(0 : Int).toNat]?
          = some t →
        m.tasks[(0 : Int).toNat]? = some { t with due_date := "X" } :=
  (edit_task_empty_fields (TodoList.init.add_task "A" "d" "p") 0 (by decide)
    (by decide) "X" (by decide)).1

/-- C7: at a valid index whose task is not completed, `mark_completed`
followed by `mark_incomplete` restores the whole list state, so
`is_completed` returns to its original `false` value (round-trip). -/
theorem mark_round_trip (l : TodoList) (i : Int) (h0 : 0 ≤ i)
    (h1 : i < (l.tasks.length : Int))
    (h2 : ∀ t, l.tasks[i.toNat]? = some t → t.is_completed = false) :
    (l.mark_completed i).bind (fun m => m.mark_incomplete i) = some l := by
  have hlt : i.toNat < l.tasks.length := by omega
  have hj := pyIndex_of_nonneg h0 h1
  have hget : l.tasks[i.toNat]? = some (l.tasks.get ⟨i.toNat, hlt⟩) := by
    rw [List.getElem?_eq_getElem hlt]
    rfl
  have hflag := h2 _ hget
  have step1 : l.mark_completed i
      = some (TodoList.mk (l.tasks.set i.toNat
          ((l.tasks.get ⟨i.toNat, hlt⟩).withCompleted true))) := by
    unfold TodoList.mark_completed
    rw [hj]
    rfl
  rw [step1]
  show (TodoList.mk (l.tasks.set i.toNat
      ((l.tasks.get ⟨i.toNat, hlt⟩).withCompleted true))).mark_incomplete i
    = some l
  have hlen : (l.tasks.set i.toNat
      ((l.tasks.get ⟨i.toNat, hlt⟩).withCompleted true)).length
      = l.tasks.length := List.length_set _ _ _
  have hlt2 : i.toNat < (l.tasks.set i.toNat
      ((l.tasks.get ⟨i.toNat, hlt⟩).withCompleted true)).length := by
    rw [hlen]
    exact hlt
  have hj2 : pyIndex (l.tasks.set i.toNat
        ((l.tasks.get ⟨i.toNat, hlt⟩).withCompleted true)).length i
      = some ⟨i.toNat, hlt2⟩ := by
    rw [pyIndex_of_nonneg h0 (by rw [hlen]; exact h1)]
  unfold TodoList.mark_incomplete
  rw [hj2]
  have hgs : (l.tasks.set i.toNat
        ((l.tasks.get ⟨i.toNat, hlt⟩).withCompleted true)).get ⟨i.toNat, hlt2⟩
      = (l.tasks.get ⟨i.toNat, hlt⟩).withCompleted true := by
    rw [List.get_eq_getElem]
    exact List.getElem_set_self hlt2
  have hfinal : (l.tasks.set i.toNat
        ((l.tasks.get ⟨i.toNat, hlt⟩).withCompleted true)).set i.toNat
        (((l.tasks.set i.toNat
          ((l.tasks.get ⟨i.toNat, hlt⟩).withCompleted true)).get
            ⟨i.toNat, hlt2⟩).withCompleted false)
      = l.tasks := by
    rw [hgs, List.set_set]
    have heq : ((l.tasks.get ⟨i.toNat, hlt⟩).withCompleted true).withCompleted
        false = l.tasks.get ⟨i.toNat, hlt⟩ := by
      unfold Task.withCompleted
      rw [← hflag]
    rw [heq]
    exact set_getElem?_self hget
  show some (TodoList.mk ((l.tasks.set i.toNat
      ((l.tasks.get ⟨i.toNat, hlt⟩).withCompleted true)).set i.toNat
      (((l.tasks.set i.toNat
        ((l.tasks.get ⟨i.toNat, hlt⟩).withCompleted true)).get
          ⟨i.toNat, hlt2⟩).withCompleted false))) = some l
  rw [hfinal]

/-- Witness for C7 on a one-element list at index 0. -/
theorem mark_round_trip_witness :
    ((TodoList.init.add_task "W" "w1" "w2").mark_completed 0).bind
        (fun m => m.mark_incomplete 0)
      = some (TodoList.init.add_task "W" "w1" "w2") :=
  mark_round_trip (TodoList.init.add_task "W" "w1" "w2") 0 (by decide)
    (by decide)
    (fun t ht => by
      have hcomp : (TodoList.init.add_task "W" "w1" "w2").tasks[(0 :
          Int).toNat]? = some (Task.init "W" "w1" "w2") := rfl
      cases Option.some.inj (hcomp.symm.trans ht)
      rfl)

/-- C9: at a valid index, `mark_completed` and `mark_incomplete` change
only the completion flag of the task at that position: its other fields,
every other task, and the length are all unchanged. -/
theorem mark_frame (l : TodoList) (i : Int) (h0 : 0 ≤ i)
    (h1 : i < (l.tasks.length : Int)) :
    ∃ m m', l.mark_completed i = some m ∧ l.mark_incomplete i = some m' ∧
      m.tasks.length = l.tasks.length ∧ m'.tasks.length = l.tasks.length ∧
      (∀ k : Nat, k ≠ i.toNat →
        m.tasks[k]? = l.tasks[k]? ∧ m'.tasks[k]? = l.tasks[k]?) ∧
      ∀ t, l.tasks[i.toNat]? = some t →
        m.tasks[i.toNat]? = some (t.withCompleted true) ∧
        m'.tasks[i.toNat]? = some (t.withCompleted false) := by
  have hlt : i.toNat < l.tasks.length := by omega
  have hj := pyIndex_of_nonneg h0 h1
  refine ⟨TodoList.mk (l.tasks.set i.toNat
      ((l.tasks.get ⟨i.toNat, hlt⟩).withCompleted true)),
    TodoList.mk (l.tasks.set i.toNat
      ((l.tasks.get ⟨i.toNat, hlt⟩).withCompleted false)),
    ?_, ?_, List.length_set _ _ _, List.length_set _ _ _, ?_, ?_⟩
  · unfold TodoList.mark_completed
    rw [hj]
    rfl
  · unfold TodoList.mark_incomplete
    rw [hj]
    rfl
  · intro k hk
    exact ⟨List.getElem?_set_ne (Ne.symm hk), List.getElem?_set_ne (Ne.symm hk)⟩
  · intro t ht
    have hgq : l.tasks[i.toNat]? = some (l.tasks.get ⟨i.toNat, hlt⟩) := by
      rw [List.getElem?_eq_getElem hlt]
      rfl
    have hteq := Option.some.inj (hgq.symm.trans ht)
    constructor
    · rw [List.getElem?_set_self hlt, hteq]
    · rw [List.getElem?_set_self hlt, hteq]

/-- Witness for C9 on a one-element list at index 0. -/
theorem mark_frame_witness :
    ∃ m m', (TodoList.init.add_task "F" "f1" "f2").mark_completed 0 = some m ∧
      (TodoList.init.add_task "F" "f1" "f2").mark_incomplete 0 = some m' ∧
      m.tasks.length = (TodoList.init.add_task "F" "f1" "f2").tasks.length ∧
      m'.tasks.length = (TodoList.init.add_task "F" "f1" "f2").tasks.length ∧
      (∀ k : Nat, k ≠ (0 : Int).toNat →
        m.tasks[k]? = (TodoList.init.add_task "F" "f1" "f2").tasks[k]? ∧
        m'.tasks[k]? = (TodoList.init.add_task "F" "f1" "f2").tasks[k]?) ∧
      ∀ t, (TodoList.init.add_task "F" "f1" "f2").tasks[(0 : Int).toNat]?
          = some t →
        m.tasks[(0 : Int).toNat]? = some (t.withCompleted true) ∧
        m'.tasks[(0 : Int).toNat]? = some (t.withCompleted false) :=
  mark_frame (TodoList.init.add_task "F" "f1" "f2") 0 (by decide) (by decide)

/-- C10: a negative index `-length ≤ i ≤ -1` does not fault: the three
operations behave exactly as at the nonnegative position `i + length`,
and the marks mutate the task at that position. -/
theorem negative_index_accepted (l : TodoList) (i : Int)
    (h0 : -(l.tasks.length : Int) ≤ i) (h1 : i ≤ -1) :
    (∀ t d p, l.edit_task i t d p = l.edit_task (i + l.tasks.length) t d p ∧
      (l.edit_task i t d p).isSome = true) ∧
    l.mark_completed i = l.mark_completed (i + l.tasks.length) ∧
    l.mark_incomplete i = l.mark_incomplete (i + l.tasks.length) ∧
    (l.mark_completed i).isSome = true ∧
    (l.mark_incomplete i).isSome = true ∧
    (∀ m, l.mark_completed i = some m →
      ∀ t, l.tasks[(i + l.tasks.length).toNat]? = some t →
        m.tasks[(i + l.tasks.length).toNat]? = some (t.withCompleted true)) ∧
    (∀ m, l.mark_incomplete i = some m →
      ∀ t, l.tasks[(i + l.tasks.length).toNat]? = some t →
        m.tasks[(i + l.tasks.length).toNat]? = some (t.withCompleted false)) := by
  have hneg : i < 0 := by omega
  have hlt : (i + l.tasks.length).toNat < l.tasks.length := by omega
  have hj := pyIndex_of_neg h0 hneg
  have hj' := pyIndex_of_nonneg (show (0 : Int) ≤ i + l.tasks.length by omega)
    (show i + (l.tasks.length : Int) < l.tasks.length by omega)
  have hmc : l.mark_completed i
      = some (TodoList.mk (l.tasks.set (i + l.tasks.length).toNat
          ((l.tasks.get ⟨(i + l.tasks.length).toNat, hlt⟩).withCompleted
            true))) := by
    unfold TodoList.mark_completed
    rw [hj]
    rfl
  have hmi : l.mark_incomplete i
      = some (TodoList.mk (l.tasks.set (i + l.tasks.length).toNat
          ((l.tasks.get ⟨(i + l.tasks.length).toNat, hlt⟩).withCompleted
            false))) := by
    unfold TodoList.mark_incomplete
    rw [hj]
    rfl
  have hgq : l.tasks[(i + l.tasks.length).toNat]?
      = some (l.tasks.get ⟨(i + l.tasks.length).toNat, hlt⟩) := by
    rw [List.getElem?_eq_getElem hlt]
    rfl
  refine ⟨?_, ?_, ?_, ?_, ?_, ?_, ?_⟩
  · intro t d p
    constructor
    · unfold TodoList.edit_task
      rw [hj, hj']
    · unfold TodoList.edit_task
      rw [hj]
      rfl
  · unfold TodoList.mark_completed
    rw [hj, hj']
  · unfold TodoList.mark_incomplete
    rw [hj, hj']
  · rw [hmc]
    rfl
  · rw [hmi]
    rfl
  · intro m hm t ht
    cases Option.some.inj (hmc.symm.trans hm)
    have hteq := Option.some.inj (hgq.symm.trans ht)
    rw [List.getElem?_set_self hlt, hteq]
  · intro m hm t ht
    cases Option.some.inj (hmi.symm.trans hm)
    have hteq := Option.some.inj (hgq.symm.trans ht)
    rw [List.getElem?_set_self hlt, hteq]

/-- Witness for C10 on a one-element list at index -1: `mark_completed`
does not fault. -/
theorem negative_index_accepted_witness :
    ((TodoList.init.add_task "N" "n1" "n2").mark_completed (-1)).isSome
      = true :=
  (negative_index_accepted (TodoList.init.add_task "N" "n1" "n2") (-1)
    (by decide) (by decide)).2.2.2.1

/-- C1 counterexample: on a one-task list the index `-1` lies outside
`[0, length)`, yet none of `edit_task`, `mark_completed`,
`mark_incomplete` raises an indexing fault there. -/
theorem negative_one_no_fault :
    ((TodoList.init.add_task "B" "e" "q").edit_task (-1)
        (some "C") none none).isSome = true ∧
    ((TodoList.init.add_task "B" "e" "q").mark_completed (-1)).isSome
      = true ∧
    ((TodoList.init.add_task "B" "e" "q").mark_incomplete (-1)).isSome
      = true := by
  refine ⟨rfl, rfl, rfl⟩

/-- C1 (amended): `edit_task`, `mark_completed` and `mark_incomplete`
raise an uncaught indexing fault exactly when the index is at least the
length or strictly below the negated length; in particular every index
`≥ length` faults, but a negative index only faults below `-length`. -/
theorem edit_mark_fault_iff (l : TodoList) (i : Int)
    (title due_date priority : Option String) :
    ((l.edit_task i title due_date priority = none)
      ↔ ((l.tasks.length : Int) ≤ i ∨ i < -(l.tasks.length : Int))) ∧
    ((l.mark_completed i = none)
      ↔ ((l.tasks.length : Int) ≤ i ∨ i < -(l.tasks.length : Int))) ∧
    ((l.mark_incomplete i = none)
      ↔ ((l.tasks.length : Int) ≤ i ∨ i < -(l.tasks.length : Int))) := by
  have hedit : (l.edit_task i title due_date priority = none)
      ↔ pyIndex l.tasks.length i = none := by
    unfold TodoList.edit_task
    cases hp : pyIndex l.tasks.length i <;> simp
  have hmc : (l.mark_completed i = none)
      ↔ pyIndex l.tasks.length i = none := by
    unfold TodoList.mark_completed
    cases hp : pyIndex l.tasks.length i <;> simp
  have hmi : (l.mark_incomplete i = none)
      ↔ pyIndex l.tasks.length i = none := by
    unfold TodoList.mark_incomplete
    cases hp : pyIndex l.tasks.length i <;> simp
  rw [hedit, hmc, hmi, pyIndex_eq_none_iff]
  exact ⟨Iff.rfl, Iff.rfl, Iff.rfl⟩

end SimpleTodoList
